import Mathlib

/-!
Shallow embedding of the request/authentication/retry core of
`src/docs/mcp/sdk/python_client.py` (class `PMOMCPClient`), plus spec-side
definitions used to compare the code against the specification's error
taxonomy.  The executor (`PMOMCPClient._request`, lines 563-625 of the
source) is modelled as a pure function of the per-attempt server behavior,
recording the outcome, the number of HTTP attempts made, and the backoff
sleeps performed.  Machine integers are modelled as `Int`/`Nat` (no
overflow is relevant in this code path).
-/

namespace PMOClient

/-- Parsed error envelope: the fields of the source's `ApiError` /
`ApiErrorDetail` pydantic models that the client logic actually reads
(`error.code`, `error.message`, top-level `statusCode`; `timestamp` and
`details` are carried but never branched on). -/
structure ApiErrorData where
  code : String
  message : String
  statusCode : Int
  deriving Repr, DecidableEq

/-- JSON payloads the client distinguishes: a body matching the
`AuthResponse` shape (fields `token`, `expiresIn`), or any other JSON
value (opaque). -/
inductive JsonPayload
  | authPayload (token : String) (expiresIn : Int)
  | other (s : String)
  deriving Repr, DecidableEq

/-- The body of an HTTP response as observed by the client:
absent (`len(response.content) == 0`), valid JSON matching the error
envelope (`ApiError(**response.json())` succeeds), valid JSON of some
other shape (`response.json()` succeeds, pydantic validation fails),
or not valid JSON (`response.json()` raises `requests.JSONDecodeError`,
a subclass of `requests.RequestException`). -/
inductive HttpBody
  | empty
  | errorEnvelope (e : ApiErrorData)
  | jsonValue (p : JsonPayload)
  | notJson
  deriving Repr, DecidableEq

/-- What one call to `self.session.request(...)` produces: a transport-level
`requests.RequestException`, or an HTTP response with a status code and a
body. -/
inductive AttemptResult
  | exc
  | resp (status : Nat) (body : HttpBody)
  deriving Repr, DecidableEq

/-- The decoded success value returned by `_request`: `None` for a 204 or
empty body (the source's "no content"), or the decoded JSON body. -/
inductive DecodedBody
  | noContent
  | jsonVal (p : JsonPayload)
  | envVal (e : ApiErrorData)
  deriving Repr, DecidableEq

/-- The exception hierarchy of the source: `AuthenticationError`,
`PermissionError`, `NotFoundError` (subclasses of `PMOAPIError`), plain
`PMOAPIError`, and `requests.RequestException`.  Each `PMOAPIError` carries
the parsed envelope (its `status_code` attribute is `error.statusCode`). -/
inductive PMOExc
  | authenticationError (e : ApiErrorData)
  | permissionError (e : ApiErrorData)
  | notFoundError (e : ApiErrorData)
  | apiError (e : ApiErrorData)
  | requestException
  deriving Repr, DecidableEq

/-- How one `_request` call resolves: a returned decoded value, a raised
classified exception, or an exception that escapes the `except` clause
unclassified (pydantic `ValidationError` on a malformed error body, or
`raise None` when the loop body never ran). -/
inductive Outcome
  | success (v : DecodedBody)
  | failure (e : PMOExc)
  | crash
  deriving Repr, DecidableEq

/-- Source `PMOMCPClientConfig` (dataclass, lines 219-224). -/
structure PMOMCPClientConfig where
  base_url : String
  api_version : String
  timeout : Int
  retry_attempts : Int
  deriving Repr, DecidableEq

/-- The client's token state: `self.auth_token` and `self.token_expiry`
(lines 254-255; expiry is a wall-clock instant, modelled as `Int`). -/
structure ClientState where
  auth_token : Option String
  token_expiry : Option Int
  deriving Repr, DecidableEq

/-- One outbound request as built by a client method: HTTP method, path and
whether the call passes `skip_auth=True`. -/
structure RequestSpec where
  method : String
  path : String
  skip_auth : Bool
  deriving Repr, DecidableEq

/-- Python truthiness of `self.auth_token : Optional[str]`: `None` and the
empty string are falsy. -/
def pyTruthy : Option String → Bool
  | none => false
  | some s => if s = "" then false else true

/-- Header construction of `_request` (lines 573-576): the `Authorization`
header is attached iff `not skip_auth and self.auth_token` is truthy; its
value is `f'Bearer {self.auth_token}'`.  Token validity is never consulted. -/
def requestAuthHeader (st : ClientState) (skip : Bool) : Option String :=
  if !skip && pyTruthy st.auth_token then
    some ("Bearer " ++ st.auth_token.getD "")
  else
    none

/-- How the `try` block of one loop iteration of `_request` resolves
(lines 581-608): a `return`, an exception caught by
`except (requests.RequestException, PMOAPIError)`, or an exception that is
not caught (pydantic `ValidationError` from `ApiError(**response.json())`
when the body is JSON of the wrong shape). -/
inductive TryResult
  | ret (v : DecodedBody)
  | raised (e : PMOExc)
  | uncaught
  deriving Repr, DecidableEq

/-- One iteration of the `_request` loop body (lines 581-608).
`response.ok` is `status_code < 400`.  On a non-ok response the code parses
the body as `ApiError` and branches on the envelope's `statusCode` field
(401/403/404/other); a non-JSON or empty body makes `response.json()` raise
a `RequestException` subclass, and JSON of the wrong shape makes pydantic
raise an uncaught `ValidationError`.  On an ok response, a 204 status or an
empty body returns `None`; otherwise `response.json()` is returned (raising
a `RequestException` subclass if the body is not JSON). -/
def attemptOnce : AttemptResult → TryResult
  | .exc => .raised .requestException
  | .resp status body =>
    if status < 400 then
      if status = 204 ∨ body = HttpBody.empty then .ret .noContent
      else
        match body with
        | .jsonValue p => .ret (.jsonVal p)
        | .errorEnvelope e => .ret (.envVal e)
        | .notJson => .raised .requestException
        | .empty => .ret .noContent
    else
      match body with
      | .errorEnvelope e =>
        if e.statusCode = 401 then .raised (.authenticationError e)
        else if e.statusCode = 403 then .raised (.permissionError e)
        else if e.statusCode = 404 then .raised (.notFoundError e)
        else .raised (.apiError e)
      | .jsonValue _ => .uncaught
      | .notJson => .raised .requestException
      | .empty => .raised .requestException

/-- The `except` clause's decision to re-raise immediately (lines 613-619):
`AuthenticationError` and `PermissionError` always re-raise; any
`PMOAPIError` with `400 <= e.status_code < 500` re-raises; everything else
(5xx `PMOAPIError`, `RequestException`) is retried. -/
def shouldRaise : PMOExc → Bool
  | .authenticationError _ => true
  | .permissionError _ => true
  | .notFoundError e => decide (400 ≤ e.statusCode ∧ e.statusCode < 500)
  | .apiError e => decide (400 ≤ e.statusCode ∧ e.statusCode < 500)
  | .requestException => false

/-- The observable result of the retry loop: its outcome, the number of HTTP
attempts actually performed, and the list of backoff sleeps (in time units)
executed between attempts. -/
structure LoopResult where
  outcome : Outcome
  attempts : Nat
  sleeps : List Nat
  deriving Repr, DecidableEq

/-- The `for attempt in range(self.config.retry_attempts)` loop of
`_request` (lines 578-625), with fuel equal to the number of remaining
iterations.  On a retry-eligible exception, the code sleeps
`2 ** attempt` iff `attempt < self.config.retry_attempts - 1` and continues;
when the loop exhausts, `raise last_error` surfaces the last caught
exception, or crashes with `TypeError` (`raise None`) if no iteration ever
ran. -/
def runAux (cfg : PMOMCPClientConfig) (server : Nat → AttemptResult) :
    Nat → Nat → Option PMOExc → LoopResult
  | 0, _, lastErr =>
    match lastErr with
    | some e => ⟨.failure e, 0, []⟩
    | none => ⟨.crash, 0, []⟩
  | fuel + 1, attempt, _ =>
    match attemptOnce (server attempt) with
    | .ret v => ⟨.success v, 1, []⟩
    | .uncaught => ⟨.crash, 1, []⟩
    | .raised e =>
      if shouldRaise e then ⟨.failure e, 1, []⟩
      else
        let r := runAux cfg server fuel (attempt + 1) (some e)
        if (attempt : Int) < cfg.retry_attempts - 1 then
          ⟨r.outcome, r.attempts + 1, 2 ^ attempt :: r.sleeps⟩
        else
          ⟨r.outcome, r.attempts + 1, r.sleeps⟩

/-- Full result of one `_request` call, including the `Authorization` header
value the call was sent with (computed once, before the loop). -/
structure ExecResult where
  outcome : Outcome
  attempts : Nat
  sleeps : List Nat
  authHeaderSent : Option String
  deriving Repr, DecidableEq

/-- Source `PMOMCPClient._request` (lines 563-625), as a function of the
configuration, the client state, the request spec and the per-attempt
server behavior.  `range(n)` of a non-positive Python int is empty, so the
fuel is `retry_attempts.toNat`. -/
def privRequest (cfg : PMOMCPClientConfig) (st : ClientState)
    (spec : RequestSpec) (server : Nat → AttemptResult) : ExecResult :=
  let hdr := requestAuthHeader st spec.skip_auth
  let r := runAux cfg server cfg.retry_attempts.toNat 0 none
  ⟨r.outcome, r.attempts, r.sleeps, hdr⟩

/-- `AuthResponse(**response)` (line 283): succeeds exactly when the decoded
body is JSON of the `AuthResponse` shape; any other value makes pydantic
raise (an uncaught failure of `authenticate`). -/
def parseAuthResponse : DecodedBody → Option (String × Int)
  | .jsonVal (.authPayload tok exp) => some (tok, exp)
  | _ => none

/-- Result of one public client operation: the client state afterwards,
the `Authorization` header the operation's HTTP request was sent with
(`none` when the operation makes no HTTP request at all), and whether the
operation completed successfully. -/
structure OpResult where
  newState : ClientState
  authHeaderSent : Option (Option String)
  succeeded : Bool
  deriving Repr, DecidableEq

/-- The tail of `authenticate` (lines 282-287): on a successful request
whose body parses as `AuthResponse`, assign `self.auth_token` and
`self.token_expiry = time.time() + auth.expiresIn`; on a raised error or a
failed parse the assignments never execute and the state is unchanged. -/
def authFinish (st : ClientState) (now : Int) (r : ExecResult) : OpResult :=
  match r.outcome with
  | .success v =>
    match parseAuthResponse v with
    | some (tok, exp) => ⟨⟨some tok, some (now + exp)⟩, some r.authHeaderSent, true⟩
    | none => ⟨st, some r.authHeaderSent, false⟩
  | .failure _ => ⟨st, some r.authHeaderSent, false⟩
  | .crash => ⟨st, some r.authHeaderSent, false⟩

/-- The request issued by `authenticate` (lines 276-281):
`POST /auth/login` with `skip_auth=True`. -/
def loginSpec : RequestSpec := ⟨"POST", "/auth/login", true⟩

/-- A public operation that is a single `_request` call plus response
decoding, with no assignment to the token state (every public method of the
source other than `authenticate` and `is_authenticated`). -/
def requestOnlyOp (cfg : PMOMCPClientConfig) (st : ClientState)
    (spec : RequestSpec) (server : Nat → AttemptResult) : OpResult :=
  let r := privRequest cfg st spec server
  ⟨st, some r.authHeaderSent,
    match r.outcome with
    | .success _ => true
    | _ => false⟩

/-- The public operations of `PMOMCPClient` (its public methods). -/
inductive Operation
  | opAuthenticate (email password : String)
  | opGetProfile
  | opIsAuthenticated
  | opListCustomers
  | opGetCustomer (id : String)
  | opCreateCustomer
  | opUpdateCustomer (id : String)
  | opDeleteCustomer (id : String)
  | opSearchCustomerByPhone (phone : String)
  | opListTasks
  | opGetTask (id : String)
  | opCreateTask
  | opUpdateTask (id : String)
  | opDeleteTask (id : String)
  | opGetKanbanBoard
  | opUpdateTaskStatus (id : String)
  | opAddCaseNote (id : String)
  | opBookAppointment
  | opSearchAvailability
  | opGetBooking (id : String)
  | opCancelBooking (id : String)
  | opListLinkages
  | opCreateLinkage
  | opDeleteLinkage (id : String)
  deriving Repr, DecidableEq

/-- One public operation of the client, as a transformer of the token state.
Every arm mirrors the corresponding source method: each builds exactly one
`_request` call; only `authenticate` assigns to `self.auth_token` /
`self.token_expiry`; `is_authenticated` performs no HTTP request. -/
def step (op : Operation) (cfg : PMOMCPClientConfig) (st : ClientState)
    (now : Int) (server : Nat → AttemptResult) : OpResult :=
  match op with
  | .opAuthenticate _ _ => authFinish st now (privRequest cfg st loginSpec server)
  | .opGetProfile => requestOnlyOp cfg st ⟨"GET", "/auth/profile", false⟩ server
  | .opIsAuthenticated => ⟨st, none, true⟩
  | .opListCustomers => requestOnlyOp cfg st ⟨"GET", "/cust", false⟩ server
  | .opGetCustomer id => requestOnlyOp cfg st ⟨"GET", "/cust/" ++ id, false⟩ server
  | .opCreateCustomer => requestOnlyOp cfg st ⟨"POST", "/cust", false⟩ server
  | .opUpdateCustomer id => requestOnlyOp cfg st ⟨"PUT", "/cust/" ++ id, false⟩ server
  | .opDeleteCustomer id => requestOnlyOp cfg st ⟨"DELETE", "/cust/" ++ id, false⟩ server
  | .opSearchCustomerByPhone _ => requestOnlyOp cfg st ⟨"GET", "/cust", false⟩ server
  | .opListTasks => requestOnlyOp cfg st ⟨"GET", "/task", false⟩ server
  | .opGetTask id => requestOnlyOp cfg st ⟨"GET", "/task/" ++ id, false⟩ server
  | .opCreateTask => requestOnlyOp cfg st ⟨"POST", "/task", false⟩ server
  | .opUpdateTask id => requestOnlyOp cfg st ⟨"PUT", "/task/" ++ id, false⟩ server
  | .opDeleteTask id => requestOnlyOp cfg st ⟨"DELETE", "/task/" ++ id, false⟩ server
  | .opGetKanbanBoard => requestOnlyOp cfg st ⟨"GET", "/task/kanban", false⟩ server
  | .opUpdateTaskStatus id =>
      requestOnlyOp cfg st ⟨"PATCH", "/task/" ++ id ++ "/status", false⟩ server
  | .opAddCaseNote id =>
      requestOnlyOp cfg st ⟨"POST", "/task/" ++ id ++ "/case-note", false⟩ server
  | .opBookAppointment => requestOnlyOp cfg st ⟨"POST", "/person-calendar/book", false⟩ server
  | .opSearchAvailability =>
      requestOnlyOp cfg st ⟨"GET", "/person-calendar/search", false⟩ server
  | .opGetBooking id =>
      requestOnlyOp cfg st ⟨"GET", "/person-calendar/" ++ id, false⟩ server
  | .opCancelBooking id =>
      requestOnlyOp cfg st ⟨"DELETE", "/person-calendar/" ++ id, false⟩ server
  | .opListLinkages => requestOnlyOp cfg st ⟨"GET", "/entity-linkage", false⟩ server
  | .opCreateLinkage => requestOnlyOp cfg st ⟨"POST", "/entity-linkage", false⟩ server
  | .opDeleteLinkage id =>
      requestOnlyOp cfg st ⟨"DELETE", "/entity-linkage/" ++ id, false⟩ server

/-- Source `is_authenticated` (lines 294-300): `self.auth_token is not None
and self.token_expiry is not None and self.token_expiry > time.time()`. -/
def is_authenticated (st : ClientState) (now : Int) : Bool :=
  match st.auth_token, st.token_expiry with
  | some _, some exp => decide (exp > now)
  | _, _ => false

/-- The credential assignment performed by a successful `authenticate`
(lines 284-285): the spec's `setCredential(token, ttlSeconds)` with
`expiresAt = now + ttlSeconds`.  Replaces the stored credential wholesale. -/
def setCredential (tok : String) (ttl : Int) (now : Int) : ClientState :=
  ⟨some tok, some (now + ttl)⟩

/-- The spec's `currentToken()`: the stored token, read with no validity
check (the source reads `self.auth_token` directly, line 575). -/
def currentToken (st : ClientState) : Option String :=
  st.auth_token

/-- The specification's closed error taxonomy (spec section 4.2). -/
inductive ErrKind
  | Authentication
  | Permission
  | NotFound
  | Validation
  | RateLimited
  | ServerFault
  | Transport
  deriving Repr, DecidableEq

/-- Modelled from the spec: the Error Classifier rule table of section 4.2,
with the rules evaluated in the order the spec lists them (1-7).  Input is
the HTTP status, `none` for a transport failure. -/
def classifySpec (httpStatus : Option Int) : ErrKind :=
  match httpStatus with
  | none => .Transport
  | some s =>
    if s = 401 then .Authentication
    else if s = 403 then .Permission
    else if s = 404 then .NotFound
    else if 400 ≤ s ∧ s < 500 then .Validation
    else if s = 429 then .RateLimited
    else .ServerFault

/-- Modelled from the spec: the per-kind `retryable` flag of sections 4.2
and 7. -/
def specRetryable : ErrKind → Bool
  | .Authentication => false
  | .Permission => false
  | .NotFound => false
  | .Validation => false
  | .RateLimited => true
  | .ServerFault => true
  | .Transport => true

/-- Refinement map from the source's exception classes onto the spec's
taxonomy: the three named subclasses map to their kinds, a plain
`PMOAPIError` is a client error (Validation) when its status is in
`[400, 500)` and a ServerFault otherwise, and `RequestException` is
Transport. -/
def specKindOfExc : PMOExc → ErrKind
  | .authenticationError _ => .Authentication
  | .permissionError _ => .Permission
  | .notFoundError _ => .NotFound
  | .apiError e => if 400 ≤ e.statusCode ∧ e.statusCode < 500 then .Validation else .ServerFault
  | .requestException => .Transport

/-! ### Concrete fixtures used by counterexamples and witnesses -/

/-- Default configuration: `retry_attempts = 3` (spec's `maxAttempts=3`). -/
def cfg3 : PMOMCPClientConfig := ⟨"http://localhost:4000", "v1", 30, 3⟩

/-- A configuration with `retry_attempts = 0`. -/
def cfg0 : PMOMCPClientConfig := ⟨"http://localhost:4000", "v1", 30, 0⟩

/-- A fresh client state with no credential. -/
def st0 : ClientState := ⟨none, none⟩

/-- A representative authenticated GET request spec. -/
def specGet : RequestSpec := ⟨"GET", "/cust", false⟩

/-- A well-formed 503 error envelope. -/
def env503 : ApiErrorData := ⟨"service_unavailable", "upstream down", 503⟩

/-- A well-formed 401 error envelope. -/
def env401 : ApiErrorData := ⟨"invalid_token", "not authenticated", 401⟩

/-- A well-formed 429 error envelope. -/
def env429 : ApiErrorData := ⟨"rate_limited", "too many requests", 429⟩

/-- A server that answers every attempt with a well-formed 503 response. -/
def server503 : Nat → AttemptResult := fun _ => .resp 503 (.errorEnvelope env503)

/-- A server that answers every attempt with a well-formed 401 response. -/
def server401 : Nat → AttemptResult := fun _ => .resp 401 (.errorEnvelope env401)

/-- A server that answers every attempt with a well-formed 429 response. -/
def server429 : Nat → AttemptResult := fun _ => .resp 429 (.errorEnvelope env429)

/-- A server that answers every attempt with a 500 response whose body is
valid JSON but not the expected error envelope. -/
def server500bad : Nat → AttemptResult := fun _ => .resp 500 (.jsonValue (.other "oops"))

/-- A server that answers every attempt with a 200 response carrying a JSON
body. -/
def serverOk200 : Nat → AttemptResult := fun _ => .resp 200 (.jsonValue (.other "r"))

/-! ### Theorems for the claims -/

/-- C3: with `maxAttempts = 3` and a server that returns a well-formed 503
response on every attempt, the executor performs exactly 3 attempts,
sleeping `backoff(attempt) = 2^attempt` time units between consecutive
attempts (delays 1 then 2), and then surfaces the last error, whose kind in
the spec's taxonomy is ServerFault. -/
theorem c3_three_attempts_503 (cfg : PMOMCPClientConfig) (st : ClientState)
    (spec : RequestSpec) (server : Nat → AttemptResult) (env : ApiErrorData)
    (hcfg : cfg.retry_attempts = 3) (henv : env.statusCode = 503)
    (hs : ∀ i, server i = .resp 503 (.errorEnvelope env)) :
    (privRequest cfg st spec server).attempts = 3 ∧
    (privRequest cfg st spec server).sleeps = [1, 2] ∧
    (privRequest cfg st spec server).outcome = .failure (.apiError env) ∧
    specKindOfExc (.apiError env) = .ServerFault := by
  obtain ⟨c, m, sc⟩ := env
  have henv2 : sc = 503 := henv
  subst henv2
  obtain ⟨bu, av, tm, ra⟩ := cfg
  have hcfg2 : ra = 3 := hcfg
  subst hcfg2
  have hsf : server = fun _ => .resp 503 (.errorEnvelope ⟨c, m, 503⟩) := funext hs
  subst hsf
  exact ⟨rfl, rfl, rfl, rfl⟩

/-- Witness for `c3_three_attempts_503` at the concrete always-503 server. -/
theorem c3_witness :
    (privRequest cfg3 st0 specGet server503).attempts = 3 ∧
    (privRequest cfg3 st0 specGet server503).sleeps = [1, 2] ∧
    (privRequest cfg3 st0 specGet server503).outcome = .failure (.apiError env503) ∧
    specKindOfExc (.apiError env503) = .ServerFault :=
  c3_three_attempts_503 cfg3 st0 specGet server503 env503 rfl rfl (fun _ => rfl)

/-- C4: when the first attempt yields a well-formed HTTP 401 response, the
executor makes exactly 1 attempt, performs no backoff sleep, and surfaces an
`AuthenticationError` (spec kind Authentication, whose `retryable` flag is
false). -/
theorem c4_single_attempt_401 (cfg : PMOMCPClientConfig) (st : ClientState)
    (spec : RequestSpec) (server : Nat → AttemptResult) (env : ApiErrorData)
    (hn : 1 ≤ cfg.retry_attempts) (henv : env.statusCode = 401)
    (hs : server 0 = .resp 401 (.errorEnvelope env)) :
    (privRequest cfg st spec server).outcome = .failure (.authenticationError env) ∧
    (privRequest cfg st spec server).attempts = 1 ∧
    (privRequest cfg st spec server).sleeps = [] ∧
    specKindOfExc (.authenticationError env) = .Authentication ∧
    specRetryable .Authentication = false := by
  obtain ⟨k, hk⟩ : ∃ k, cfg.retry_attempts.toNat = k + 1 :=
    ⟨cfg.retry_attempts.toNat - 1, by omega⟩
  have h1 : attemptOnce (server 0) = .raised (.authenticationError env) := by
    rw [hs]; simp [attemptOnce, henv]
  refine ⟨?_, ?_, ?_, rfl, rfl⟩ <;>
    simp [privRequest, hk, runAux, h1, shouldRaise]

/-- Witness for `c4_single_attempt_401` at the concrete always-401 server. -/
theorem c4_witness :
    (privRequest cfg3 st0 specGet server401).outcome = .failure (.authenticationError env401) ∧
    (privRequest cfg3 st0 specGet server401).attempts = 1 ∧
    (privRequest cfg3 st0 specGet server401).sleeps = [] ∧
    specKindOfExc (.authenticationError env401) = .Authentication ∧
    specRetryable .Authentication = false :=
  c4_single_attempt_401 cfg3 st0 specGet server401 env401 (by decide) rfl rfl

/-- C5: after `setCredential(token, ttlSeconds)` at time `t`,
`is_authenticated` is true at every instant strictly before `t + ttl` and
false at every instant at or after `t + ttl`, while the stored token is the
given token regardless of time. -/
theorem c5_token_validity (tok : String) (ttl t t1 t2 : Int)
    (h1 : t1 < t + ttl) (h2 : t + ttl ≤ t2) :
    is_authenticated (setCredential tok ttl t) t1 = true ∧
    is_authenticated (setCredential tok ttl t) t2 = false ∧
    currentToken (setCredential tok ttl t) = some tok := by
  refine ⟨?_, ?_, rfl⟩ <;> simp [is_authenticated, setCredential] <;> omega

/-- Witness for `c5_token_validity`: the spec's `setCredential("abc", 3600)`
scenario, checked just after the call and at expiry. -/
theorem c5_witness :
    is_authenticated (setCredential "abc" 3600 0) 100 = true ∧
    is_authenticated (setCredential "abc" 3600 0) 3600 = false ∧
    currentToken (setCredential "abc" 3600 0) = some "abc" :=
  c5_token_validity "abc" 3600 0 100 3600 (by norm_num) (by norm_num)

/-- C7: whenever the loop reaches an attempt whose response is 2xx (with a
decodable body, per the interface contract of JSON bodies), the executor
returns success from that attempt immediately — one attempt from that
point, no sleeps — and the decoded value is `noContent` exactly when the
status is 204 or the body is absent, and the decoded JSON body otherwise. -/
theorem c7_success_immediate (cfg : PMOMCPClientConfig)
    (server : Nat → AttemptResult) (fuel attempt : Nat)
    (lastErr : Option PMOExc) (s : Nat) (b : HttpBody)
    (hfuel : 0 < fuel) (hs : server attempt = .resp s b)
    (h2 : 200 ≤ s) (h3 : s < 300) (hb : b ≠ .notJson) :
    ∃ v, attemptOnce (server attempt) = .ret v ∧
      runAux cfg server fuel attempt lastErr = ⟨.success v, 1, []⟩ ∧
      ((s = 204 ∨ b = .empty) → v = .noContent) ∧
      (∀ p, b = .jsonValue p → s ≠ 204 → v = .jsonVal p) := by
  obtain ⟨k, hk⟩ : ∃ k, fuel = k + 1 := ⟨fuel - 1, by omega⟩
  subst hk
  have hlt : s < 400 := by omega
  by_cases h204 : s = 204 ∨ b = HttpBody.empty
  · have hA : attemptOnce (server attempt) = .ret .noContent := by
      rw [hs]; simp [attemptOnce, hlt, h204]
    refine ⟨.noContent, hA, by simp [runAux, hA], fun _ => rfl, ?_⟩
    intro p hp hs204
    rcases h204 with h | h
    · exact absurd h hs204
    · rw [hp] at h; exact absurd h (by simp)
  · have hs204 : ¬ s = 204 := fun h => h204 (Or.inl h)
    cases b with
    | empty => exact absurd (Or.inr rfl) h204
    | notJson => exact absurd rfl hb
    | errorEnvelope e =>
      have hA : attemptOnce (server attempt) = .ret (.envVal e) := by
        rw [hs]; simp [attemptOnce, hlt, hs204]
      exact ⟨.envVal e, hA, by simp [runAux, hA], fun h => absurd h h204,
        fun p hp => absurd hp (by simp)⟩
    | jsonValue p =>
      have hA : attemptOnce (server attempt) = .ret (.jsonVal p) := by
        rw [hs]; simp [attemptOnce, hlt, hs204]
      exact ⟨.jsonVal p, hA, by simp [runAux, hA], fun h => absurd h h204,
        fun q hq _ => by cases hq; rfl⟩

/-- Witness for `c7_success_immediate`: a 200 response with a JSON body on
the first attempt. -/
theorem c7_witness :
    ∃ v, attemptOnce (serverOk200 0) = .ret v ∧
      runAux cfg3 serverOk200 3 0 none = ⟨.success v, 1, []⟩ ∧
      (((200 : Nat) = 204 ∨ HttpBody.jsonValue (.other "r") = .empty) → v = .noContent) ∧
      (∀ p, HttpBody.jsonValue (.other "r") = .jsonValue p → (200 : Nat) ≠ 204 →
        v = .jsonVal p) :=
  c7_success_immediate cfg3 serverOk200 3 0 none 200 (.jsonValue (.other "r"))
    (by norm_num) rfl (by norm_num) (by norm_num) (by decide)

/-- C1 counterexample: with `maxAttempts = 3` and a server that returns a
well-formed 429 response on every attempt, the executor makes exactly 1
attempt, performs no backoff sleep, and surfaces a plain `PMOAPIError`
whose kind in the spec's taxonomy is not RateLimited — refuting both
"kind=RateLimited, retryable=true" and "the executor retries". -/
theorem c1_counterexample :
    (privRequest cfg3 st0 specGet server429).attempts = 1 ∧
    (privRequest cfg3 st0 specGet server429).sleeps = [] ∧
    (privRequest cfg3 st0 specGet server429).outcome = .failure (.apiError env429) ∧
    specKindOfExc (.apiError env429) ≠ .RateLimited := by
  decide

/-- C1 (amended): a well-formed 429 response is classified as a plain
`PMOAPIError` and hits the executor's "don't retry on 4xx" rule: exactly 1
attempt, no sleep, the error surfaced immediately.  Its kind in the spec
taxonomy is Validation — consistent with the spec's own rule order, where
the any-4xx rule precedes the (dead) 429 rule. -/
theorem c1_amended_429_not_retried (cfg : PMOMCPClientConfig) (st : ClientState)
    (spec : RequestSpec) (server : Nat → AttemptResult) (env : ApiErrorData)
    (hn : 1 ≤ cfg.retry_attempts) (henv : env.statusCode = 429)
    (hs : server 0 = .resp 429 (.errorEnvelope env)) :
    (privRequest cfg st spec server).outcome = .failure (.apiError env) ∧
    (privRequest cfg st spec server).attempts = 1 ∧
    (privRequest cfg st spec server).sleeps = [] ∧
    specKindOfExc (.apiError env) = .Validation ∧
    classifySpec (some 429) = .Validation := by
  obtain ⟨k, hk⟩ : ∃ k, cfg.retry_attempts.toNat = k + 1 :=
    ⟨cfg.retry_attempts.toNat - 1, by omega⟩
  have h1 : attemptOnce (server 0) = .raised (.apiError env) := by
    rw [hs]; simp [attemptOnce, henv]
  have h2 : shouldRaise (.apiError env) = true := by
    simp [shouldRaise, henv]
  refine ⟨?_, ?_, ?_, by simp [specKindOfExc, henv], by decide⟩ <;>
    simp [privRequest, hk, runAux, h1, h2]

/-- Witness for `c1_amended_429_not_retried` at the concrete always-429
server. -/
theorem c1_amended_witness :
    (privRequest cfg3 st0 specGet server429).outcome = .failure (.apiError env429) ∧
    (privRequest cfg3 st0 specGet server429).attempts = 1 ∧
    (privRequest cfg3 st0 specGet server429).sleeps = [] ∧
    specKindOfExc (.apiError env429) = .Validation ∧
    classifySpec (some 429) = .Validation :=
  c1_amended_429_not_retried cfg3 st0 specGet server429 env429 (by decide) rfl rfl

/-- C2 counterexample: a 500 response whose body is valid JSON but not the
expected `{code, message, detail}` envelope makes the call terminate with
an unhandled pydantic failure (`crash`) after 1 attempt — there is no
fallback to a ServerFault with code `"malformed_error_body"` (no
`ClassifiedError` is produced at all). -/
theorem c2_counterexample :
    (privRequest cfg3 st0 specGet server500bad).outcome = .crash ∧
    (privRequest cfg3 st0 specGet server500bad).attempts = 1 := by
  decide

/-- C2 (amended): a non-2xx response whose body is valid JSON but fails to
parse as the expected error envelope escapes classification entirely — the
pydantic error is not caught and the call crashes on that attempt; a
non-2xx body that is not valid JSON instead raises a `RequestException`
subclass, which is retried like a transport failure.  No
`"malformed_error_body"` ServerFault fallback exists. -/
theorem c2_amended_malformed_body (cfg : PMOMCPClientConfig) (st : ClientState)
    (spec : RequestSpec) (server : Nat → AttemptResult) (s : Nat) (p : JsonPayload)
    (hs400 : 400 ≤ s) (hsrv : server 0 = .resp s (.jsonValue p))
    (hn : 1 ≤ cfg.retry_attempts) :
    attemptOnce (.resp s (.jsonValue p)) = .uncaught ∧
    attemptOnce (.resp s .notJson) = .raised .requestException ∧
    shouldRaise .requestException = false ∧
    (privRequest cfg st spec server).outcome = .crash ∧
    (privRequest cfg st spec server).attempts = 1 := by
  have hlt : ¬ s < 400 := by omega
  obtain ⟨k, hk⟩ : ∃ k, cfg.retry_attempts.toNat = k + 1 :=
    ⟨cfg.retry_attempts.toNat - 1, by omega⟩
  have h1 : attemptOnce (server 0) = .uncaught := by
    rw [hsrv]; simp [attemptOnce, hlt]
  refine ⟨by simp [attemptOnce, hlt], by simp [attemptOnce, hlt], rfl, ?_, ?_⟩ <;>
    simp [privRequest, hk, runAux, h1]

/-- Witness for `c2_amended_malformed_body` at the concrete server whose 500
responses carry a JSON body of the wrong shape. -/
theorem c2_amended_witness :
    attemptOnce (.resp 500 (.jsonValue (.other "oops"))) = .uncaught ∧
    attemptOnce (.resp 500 .notJson) = .raised .requestException ∧
    shouldRaise .requestException = false ∧
    (privRequest cfg3 st0 specGet server500bad).outcome = .crash ∧
    (privRequest cfg3 st0 specGet server500bad).attempts = 1 :=
  c2_amended_malformed_body cfg3 st0 specGet server500bad 500 (.other "oops")
    (by norm_num) rfl (by decide)

/-- C6 counterexample: a token state holding the empty-string token — a
present token — yields no `Authorization` header on a request requiring
auth, because Python's truthiness test `if not skip_auth and
self.auth_token` treats `""` as false. -/
theorem c6_counterexample :
    (ClientState.mk (some "") (some 9999)).auth_token.isSome = true ∧
    requestAuthHeader ⟨some "", some 9999⟩ false = none := by
  decide

/-- C6 (amended): the executor attaches the `Authorization` header iff the
request requires auth and a non-empty token is present, and attaching never
consults the token's expiry — states differing only in `token_expiry`
produce the same header, so an expired but present (non-empty) token is
still attached. -/
theorem c6_amended_header_iff (st : ClientState) (skip : Bool) :
    ((requestAuthHeader st skip).isSome = true ↔
      skip = false ∧ ∃ t, st.auth_token = some t ∧ t ≠ "") ∧
    (∀ e, requestAuthHeader ⟨st.auth_token, e⟩ skip = requestAuthHeader st skip) ∧
    (∀ t, st.auth_token = some t → t ≠ "" → skip = false →
      requestAuthHeader st skip = some ("Bearer " ++ t)) := by
  refine ⟨?_, fun _ => rfl, ?_⟩
  · obtain ⟨tok, exp⟩ := st
    cases skip
    · rcases tok with _ | t
      · simp [requestAuthHeader, pyTruthy]
      · by_cases ht : t = "" <;> simp [requestAuthHeader, pyTruthy, ht]
    · simp [requestAuthHeader]
  · intro t h1 h2 h3
    subst h3
    simp [requestAuthHeader, pyTruthy, h1, h2]

/-- Witness for `c6_amended_header_iff` at a concrete state with a non-empty
token and an expiry in the past. -/
theorem c6_amended_witness :
    (((requestAuthHeader ⟨some "abc", some 5⟩ false).isSome = true ↔
      false = false ∧ ∃ t, (ClientState.mk (some "abc") (some 5)).auth_token = some t ∧
        t ≠ "") ∧
    (∀ e, requestAuthHeader ⟨(ClientState.mk (some "abc") (some 5)).auth_token, e⟩ false =
      requestAuthHeader ⟨some "abc", some 5⟩ false) ∧
    (∀ t, (ClientState.mk (some "abc") (some 5)).auth_token = some t → t ≠ "" →
      false = false →
      requestAuthHeader ⟨some "abc", some 5⟩ false = some ("Bearer " ++ t))) :=
  c6_amended_header_iff ⟨some "abc", some 5⟩ false

/-- Helper for C8: the `try` block escapes the `except` clause unclassified
only on a non-ok response whose body is JSON of the wrong shape. -/
theorem attemptOnce_uncaught {r : AttemptResult}
    (h : attemptOnce r = .uncaught) :
    ∃ s p, r = .resp s (.jsonValue p) ∧ 400 ≤ s := by
  cases r with
  | exc => simp [attemptOnce] at h
  | resp s b =>
    cases b with
    | jsonValue p =>
      by_cases hlt : s < 400
      · by_cases h204 : s = 204 <;> simp [attemptOnce, hlt, h204] at h
      · exact ⟨s, p, rfl, by omega⟩
    | errorEnvelope e =>
      by_cases hlt : s < 400
      · by_cases h204 : s = 204 <;> simp [attemptOnce, hlt, h204] at h
      · simp only [attemptOnce, if_neg hlt] at h
        split_ifs at h
    | notJson =>
      by_cases hlt : s < 400 <;>
        by_cases h204 : s = 204 <;> simp [attemptOnce, hlt, h204] at h
    | empty =>
      by_cases hlt : s < 400 <;> simp [attemptOnce, hlt] at h

/-- Helper for C8: once the loop holds a last error (or has fuel left), it
resolves to a success or a raised classified exception, provided no
response in the run has a JSON body of the wrong shape on a non-ok
status. -/
theorem runAux_resolves (cfg : PMOMCPClientConfig) (server : Nat → AttemptResult)
    (hbody : ∀ i s p, server i = .resp s (.jsonValue p) → s < 400) :
    ∀ fuel attempt lastErr, (0 < fuel ∨ lastErr ≠ none) →
      (∃ v, (runAux cfg server fuel attempt lastErr).outcome = .success v) ∨
      (∃ e, (runAux cfg server fuel attempt lastErr).outcome = .failure e) := by
  intro fuel
  induction fuel with
  | zero =>
    intro attempt lastErr h
    rcases lastErr with _ | e
    · rcases h with h | h
      · omega
      · simp at h
    · right; exact ⟨e, rfl⟩
  | succ n ih =>
    intro attempt lastErr _
    cases hA : attemptOnce (server attempt) with
    | ret v => left; exact ⟨v, by simp [runAux, hA]⟩
    | uncaught =>
      obtain ⟨s, p, hr, hs400⟩ := attemptOnce_uncaught hA
      have := hbody attempt s p hr
      omega
    | raised e =>
      by_cases hsr : shouldRaise e = true
      · right; exact ⟨e, by simp [runAux, hA, hsr]⟩
      · have hres := ih (attempt + 1) (some e) (Or.inr (by simp))
        have houtcome : (runAux cfg server (n + 1) attempt lastErr).outcome =
            (runAux cfg server n (attempt + 1) (some e)).outcome := by
          simp only [runAux, hA]
          rw [if_neg hsr]
          split <;> rfl
        rw [houtcome]
        exact hres

/-- C8 counterexample: with `retry_attempts = 0` the loop body never runs,
so `_request` executes `raise last_error` with `last_error = None` — a
`TypeError`, neither a decoded success nor a `ClassifiedError`. -/
theorem c8_counterexample :
    (privRequest cfg0 st0 specGet server503).outcome = .crash ∧
    (privRequest cfg0 st0 specGet server503).attempts = 0 := by
  decide

/-- C8 (amended): provided `maxAttempts ≥ 1` and no non-2xx response in the
run carries a JSON body of the wrong shape, every `_request` call resolves
to exactly one outcome — one decoded success value or one raised classified
error. -/
theorem c8_amended_resolves (cfg : PMOMCPClientConfig) (st : ClientState)
    (spec : RequestSpec) (server : Nat → AttemptResult)
    (hn : 1 ≤ cfg.retry_attempts)
    (hbody : ∀ i s p, server i = .resp s (.jsonValue p) → s < 400) :
    (∃ v, (privRequest cfg st spec server).outcome = .success v) ∨
    (∃ e, (privRequest cfg st spec server).outcome = .failure e) := by
  have h := runAux_resolves cfg server hbody cfg.retry_attempts.toNat 0 none
    (Or.inl (by omega))
  simpa [privRequest] using h

/-- Witness for `c8_amended_resolves` at the concrete always-503 server. -/
theorem c8_amended_witness :
    (∃ v, (privRequest cfg3 st0 specGet server503).outcome = .success v) ∨
    (∃ e, (privRequest cfg3 st0 specGet server503).outcome = .failure e) :=
  c8_amended_resolves cfg3 st0 specGet server503 (by decide)
    (fun i s p h => by simp [server503] at h)

/-- Helper for C9: the tail of `authenticate` either leaves the state
untouched or, on full success, stores a token and an expiry. -/
theorem authFinish_state_cases (st : ClientState) (now : Int) (r : ExecResult) :
    (authFinish st now r).newState = st ∨
    ((authFinish st now r).succeeded = true ∧
      ∃ t x, (authFinish st now r).newState = ClientState.mk (some t) (some x)) := by
  obtain ⟨o, a, sl, h⟩ := r
  cases o with
  | success v =>
    cases hv : parseAuthResponse v with
    | none => left; simp [authFinish, hv]
    | some tx =>
      obtain ⟨tok, exp⟩ := tx
      right
      exact ⟨by simp [authFinish, hv], tok, now + exp, by simp [authFinish, hv]⟩
  | failure e => left; rfl
  | crash => left; rfl

/-- C9: among all public operations of the client, only a successful
`authenticate` mutates the token state — any operation that changes
`auth_token`/`token_expiry` is a succeeded `authenticate`, which stores a
token and an expiry; every other operation, and every failed
`authenticate`, leaves the state unchanged. -/
theorem c9_only_auth_mutates (op : Operation) (cfg : PMOMCPClientConfig)
    (st : ClientState) (now : Int) (server : Nat → AttemptResult) :
    (step op cfg st now server).newState = st ∨
    ((step op cfg st now server).succeeded = true ∧
      (∃ email pw, op = .opAuthenticate email pw) ∧
      ∃ t x, (step op cfg st now server).newState = ClientState.mk (some t) (some x)) := by
  cases op
  case opAuthenticate email pw =>
    rcases authFinish_state_cases st now (privRequest cfg st loginSpec server) with
      h | ⟨h1, t, x, h2⟩
    · exact Or.inl h
    · exact Or.inr ⟨h1, ⟨email, pw, rfl⟩, t, x, h2⟩
  all_goals exact Or.inl rfl

/-- Helper for C10: `authFinish` always reports the header the login
request was sent with. -/
theorem authFinish_header (st : ClientState) (now : Int) (r : ExecResult) :
    (authFinish st now r).authHeaderSent = some r.authHeaderSent := by
  obtain ⟨o, a, sl, h⟩ := r
  cases o with
  | success v =>
    cases hv : parseAuthResponse v with
    | none => simp [authFinish, hv]
    | some tx =>
      obtain ⟨tok, exp⟩ := tx
      simp [authFinish, hv]
  | failure e => rfl
  | crash => rfl

/-- C10: `authenticate` always sends its login request with no
`Authorization` header — it passes `skip_auth=True`, so even a present
(possibly stale) token in the state is never attached. -/
theorem c10_auth_no_header (email pw : String) (cfg : PMOMCPClientConfig)
    (st : ClientState) (now : Int) (server : Nat → AttemptResult) :
    (step (.opAuthenticate email pw) cfg st now server).authHeaderSent = some none := by
  calc (step (.opAuthenticate email pw) cfg st now server).authHeaderSent
      = some (privRequest cfg st loginSpec server).authHeaderSent :=
        authFinish_header st now (privRequest cfg st loginSpec server)
    _ = some (requestAuthHeader st true) := rfl
    _ = some none := rfl

end PMOClient
